import Mathlib

/-!
Verification of the `env_logger` termcolor formatting core
(`src/fmt/termcolor/extern_impl.rs`).

The development shallowly embeds the data model and operations of the module:

* the color type of the `termcolor` backend and its textual grammar (the
  `termcolor` crate is an external dependency, so its parser and
  `ColorSpec` are modelled from the description in the specification of the
  grammar and of the style specification fields);
* the repository `Color` enum with its conversions `into_termcolor`
  and `from_termcolor`, the `ParseColorError` type and `Color::from_str`;
* the `Style` builder, `StyledValue`, and the apply / write / reset
  protocol of `StyledValue::write_fmt` over an instrumented sink that records
  the operations performed on it and can be scheduled to fail.
-/

deriving instance DecidableEq for Except

namespace Termcolor

/-- Modelled from the spec: the `Color` enum of the `termcolor` crate (the
backend color type), with the eight named colors, 8-bit palette and RGB
variants, and a hidden non-exhaustive marker variant.  Component values
are `Nat`s; the parser only ever produces values in `0..=255`. -/
inductive Color where
  | Black
  | Blue
  | Green
  | Red
  | Cyan
  | Magenta
  | Yellow
  | White
  | Ansi256 (n : Nat)
  | Rgb (r g b : Nat)
  | __Nonexhaustive
  deriving DecidableEq, Repr

/-- Modelled from the spec: the `ParseColorError` of the `termcolor` crate,
which carries the offending input string; the `invalid()` accessor
returns exactly that string. -/
structure ParseColorError where
  given : String
  deriving DecidableEq, Repr

/-- Modelled from the spec: `termcolor::ParseColorError::invalid`
returns the string that could not be parsed. -/
def ParseColorError.invalid (e : ParseColorError) : String :=
  e.given

/-- Value of a decimal digit character, or `none` for any other
character. -/
def decDigitVal (c : Char) : Option Nat :=
  if c.isDigit then some (c.toNat - 48) else none

/-- Value of a hexadecimal digit character (either case), or `none`. -/
def hexDigitVal (c : Char) : Option Nat :=
  if c.isDigit then some (c.toNat - 48)
  else if 97 ≤ c.toNat ∧ c.toNat ≤ 102 then some (c.toNat - 87)
  else if 65 ≤ c.toNat ∧ c.toNat ≤ 70 then some (c.toNat - 55)
  else none

/-- One step of reading a number: accumulate a digit, or poison the
accumulator on a non-digit. -/
def digitStep (radix : Nat) (dv : Char → Option Nat) (acc : Option Nat) (c : Char) : Option Nat :=
  match acc, dv c with
  | some a, some d => some (a * radix + d)
  | _, _ => none

/-- Value of a non-empty all-digit character list in the given radix;
`none` on an empty list or any non-digit. -/
def digitsVal (dv : Char → Option Nat) (radix : Nat) (l : List Char) : Option Nat :=
  if l.isEmpty then none else l.foldl (digitStep radix dv) (some 0)

/-- Modelled from the spec: the numeric atom of the color grammar — a
single integer in decimal or `0x`-prefixed hexadecimal, accepted only
when its value lies in `0..=255`. -/
def parse_number (l : List Char) : Option Nat :=
  match (if l.take 2 = ['0', 'x'] then digitsVal hexDigitVal 16 (l.drop 2)
         else digitsVal decDigitVal 10 l) with
  | some n => if n ≤ 255 then some n else none
  | none => none

/-- Split a character list at every comma, mirroring the Rust
`str::split` on a comma (so `"a,,b"` yields three components and the empty
string yields one empty component). -/
def splitComma : List Char → List (List Char)
  | [] => [[]]
  | c :: rest =>
    if c = ',' then [] :: splitComma rest
    else
      match splitComma rest with
      | h :: t => (c :: h) :: t
      | [] => [[c]]

/-- Modelled from the spec: the named-color table of the grammar,
matched against an already-lowercased character list. -/
def nameColor (l : List Char) : Option Color :=
  if l = "black".data then some Color.Black
  else if l = "blue".data then some Color.Blue
  else if l = "green".data then some Color.Green
  else if l = "red".data then some Color.Red
  else if l = "cyan".data then some Color.Cyan
  else if l = "magenta".data then some Color.Magenta
  else if l = "yellow".data then some Color.Yellow
  else if l = "white".data then some Color.White
  else none

/-- Modelled from the spec: the numeric part of the `termcolor` color
grammar — either a triple of comma-separated integers (each `0..=255`,
decimal or `0x`-hex) mapped to `Rgb`, or a single such integer mapped to
the 8-bit palette variant; every failure carries the original input. -/
def Color.fromStrNumeric (s : String) : Except ParseColorError Color :=
  if ',' ∈ s.data then
    match splitComma s.data with
    | [a, b, c] =>
      match parse_number a, parse_number b, parse_number c with
      | some r, some g, some bl => Except.ok (Color.Rgb r g bl)
      | _, _, _ => Except.error ⟨s⟩
    | _ => Except.error ⟨s⟩
  else
    match parse_number s.data with
    | some n => Except.ok (Color.Ansi256 n)
    | none => Except.error ⟨s⟩

/-- Modelled from the spec: `termcolor::Color::from_str` — first the
eight color names matched case-insensitively, then the numeric forms. -/
def Color.fromStr (s : String) : Except ParseColorError Color :=
  match nameColor (s.data.map Char.toLower) with
  | some c => Except.ok c
  | none => Color.fromStrNumeric s

end Termcolor

/-- The repository `Color` enum (`extern_impl.rs`), including the
hidden `__Nonexhaustive` variant. -/
inductive Color where
  | Black
  | Blue
  | Green
  | Red
  | Cyan
  | Magenta
  | Yellow
  | White
  | Ansi256 (n : Nat)
  | Rgb (r g b : Nat)
  | __Nonexhaustive
  deriving DecidableEq, Repr

/-- `ParseColorErrorKind` from `extern_impl.rs`: a lower-level
`termcolor` parse failure, or an unrecognized code the grammar accepted
but the repository `Color` does not cover. -/
inductive ParseColorErrorKind where
  | TermColor (err : Termcolor.ParseColorError)
  | Unrecognized (given : String)
  deriving DecidableEq, Repr

/-- `ParseColorError` from `extern_impl.rs` (a newtype over the kind). -/
structure ParseColorError where
  kind : ParseColorErrorKind
  deriving DecidableEq, Repr

/-- `ParseColorError::termcolor` constructor. -/
def ParseColorError.termcolor (err : Termcolor.ParseColorError) : ParseColorError :=
  ⟨ParseColorErrorKind.TermColor err⟩

/-- `ParseColorError::unrecognized` constructor. -/
def ParseColorError.unrecognized (given : String) : ParseColorError :=
  ⟨ParseColorErrorKind.Unrecognized given⟩

/-- `ParseColorError::invalid`: the string that could not be parsed, in
both the termcolor-failure and the unrecognized-code cases. -/
def ParseColorError.invalid (e : ParseColorError) : String :=
  match e.kind with
  | ParseColorErrorKind.TermColor err => err.invalid
  | ParseColorErrorKind.Unrecognized given => given

/-- `Color::into_termcolor` from `extern_impl.rs`: the catch-all arm
maps the hidden variant to `None`. -/
def Color.into_termcolor : Color → Option Termcolor.Color
  | Color.Black => some Termcolor.Color.Black
  | Color.Blue => some Termcolor.Color.Blue
  | Color.Green => some Termcolor.Color.Green
  | Color.Red => some Termcolor.Color.Red
  | Color.Cyan => some Termcolor.Color.Cyan
  | Color.Magenta => some Termcolor.Color.Magenta
  | Color.Yellow => some Termcolor.Color.Yellow
  | Color.White => some Termcolor.Color.White
  | Color.Ansi256 v => some (Termcolor.Color.Ansi256 v)
  | Color.Rgb r g b => some (Termcolor.Color.Rgb r g b)
  | Color.__Nonexhaustive => none

/-- `Color::from_termcolor` from `extern_impl.rs`: the catch-all arm
maps the hidden backend variant to `None`. -/
def Color.from_termcolor : Termcolor.Color → Option Color
  | Termcolor.Color.Black => some Color.Black
  | Termcolor.Color.Blue => some Color.Blue
  | Termcolor.Color.Green => some Color.Green
  | Termcolor.Color.Red => some Color.Red
  | Termcolor.Color.Cyan => some Color.Cyan
  | Termcolor.Color.Magenta => some Color.Magenta
  | Termcolor.Color.Yellow => some Color.Yellow
  | Termcolor.Color.White => some Color.White
  | Termcolor.Color.Ansi256 v => some (Color.Ansi256 v)
  | Termcolor.Color.Rgb r g b => some (Color.Rgb r g b)
  | Termcolor.Color.__Nonexhaustive => none

/-- `Color::from_str` from `extern_impl.rs`: delegate to the backend
grammar, then translate the backend color, reporting an `unrecognized`
error when the translation has no covering variant. -/
def Color.from_str (s : String) : Except ParseColorError Color :=
  match Termcolor.Color.fromStr s with
  | Except.error e => Except.error (ParseColorError.termcolor e)
  | Except.ok tc =>
    match Color.from_termcolor tc with
    | some c => Except.ok c
    | none => Except.error (ParseColorError.unrecognized s)

/-- Modelled from the spec: the `ColorSpec` of the `termcolor` crate — an
optional foreground color, an optional background color, a bold flag
and an intensity flag; each setter overwrites its own field. -/
structure ColorSpec where
  fg : Option Termcolor.Color
  bg : Option Termcolor.Color
  bold : Bool
  intense : Bool
  deriving DecidableEq, Repr

/-- `ColorSpec::new`: no colors, not bold, not intense. -/
def ColorSpec.new : ColorSpec :=
  ⟨none, none, false, false⟩

/-- `ColorSpec::set_fg`. -/
def ColorSpec.set_fg (s : ColorSpec) (c : Option Termcolor.Color) : ColorSpec :=
  { s with fg := c }

/-- `ColorSpec::set_bg`. -/
def ColorSpec.set_bg (s : ColorSpec) (c : Option Termcolor.Color) : ColorSpec :=
  { s with bg := c }

/-- `ColorSpec::set_bold`. -/
def ColorSpec.set_bold (s : ColorSpec) (yes : Bool) : ColorSpec :=
  { s with bold := yes }

/-- `ColorSpec::set_intense`. -/
def ColorSpec.set_intense (s : ColorSpec) (yes : Bool) : ColorSpec :=
  { s with intense := yes }

/-- The privileged operations `StyledValue::write_fmt` performs on the
shared sink, recorded by the instrumented sink model: applying a style
specification, writing (part of) the inner value, and resetting the
styling. -/
inductive Op where
  | setColor (spec : ColorSpec)
  | writeValue
  | reset
  deriving DecidableEq, Repr

/-- Opaque I/O failure reported by the underlying stream. -/
inductive IoError where
  | ioError
  deriving DecidableEq, Repr

/-- Instrumented model of the repository `Buffer` (which delegates to
`termcolor::Buffer`, an external sink): it records every styling
operation attempted on it, and carries a fault schedule saying whether
the underlying stream fails a `set_color` or a `reset` call. -/
structure Buffer where
  ops : List Op
  failSetColor : Bool
  failReset : Bool
  deriving DecidableEq, Repr

/-- `Buffer::set_color`: the attempt is recorded even when the
underlying stream reports an I/O failure. -/
def Buffer.set_color (b : Buffer) (spec : ColorSpec) : Buffer × Except IoError Unit :=
  ({ b with ops := b.ops ++ [Op.setColor spec] },
   if b.failSetColor then Except.error IoError.ioError else Except.ok ())

/-- `Buffer::reset`: the attempt is recorded even when the underlying
stream reports an I/O failure. -/
def Buffer.reset (b : Buffer) : Buffer × Except IoError Unit :=
  ({ b with ops := b.ops ++ [Op.reset] },
   if b.failReset then Except.error IoError.ioError else Except.ok ())

/-- `fmt::Error` is a unit struct in Rust; the embedding tags each
error with the step of `write_fmt` that produced it, as ghost data, so
that the error-priority contract (the step whose failure is reported) can
be stated.  `map_err(|_| fmt::Error)` in the source becomes the tagging
of an `IoError` with the corresponding step. -/
inductive FmtError where
  | fromSetColor
  | fromWrite
  | fromReset
  deriving DecidableEq, Repr

/-- `Result::and` from Rust: keep the error of the first value, otherwise
return the second value. -/
def resultAnd {ε α β : Type} : Except ε α → Except ε β → Except ε β
  | Except.error e, _ => Except.error e
  | Except.ok _, r => r

/-- The `map_err` to `fmt::Error` applied to the result of the reset step. -/
def mapErrReset : Except IoError Unit → Except FmtError Unit
  | Except.error _ => Except.error FmtError.fromReset
  | Except.ok u => Except.ok u

/-- `Cow` over `Style`: either a borrowed or an owned style.  In the
source, `Style::value` borrows and `Style::into_value` owns; the Rust
borrow checker forbids mutating a `Style` while a `StyledValue`
borrowing it is alive, so pure value semantics for the borrowed arm is
the faithful functional model. -/
inductive Cow (α : Type) where
  | borrowed (a : α)
  | owned (a : α)
  deriving DecidableEq, Repr

/-- Dereference a `Cow`. -/
def Cow.get {α : Type} : Cow α → α
  | Cow.borrowed a => a
  | Cow.owned a => a

/-- `Style` from `extern_impl.rs`: a shared handle to the sink (the
`Rc<RefCell<Buffer>>` identity, modelled as a number) plus a private
`ColorSpec`. -/
structure Style where
  buf : Nat
  spec : ColorSpec
  deriving DecidableEq, Repr

/-- `Style::set_color`: `self.spec.set_fg(color.into_termcolor())`. -/
def Style.set_color (s : Style) (color : Color) : Style :=
  { s with spec := s.spec.set_fg color.into_termcolor }

/-- `Style::set_bold`. -/
def Style.set_bold (s : Style) (yes : Bool) : Style :=
  { s with spec := s.spec.set_bold yes }

/-- `Style::set_intense`. -/
def Style.set_intense (s : Style) (yes : Bool) : Style :=
  { s with spec := s.spec.set_intense yes }

/-- `Style::set_bg`: `self.spec.set_bg(color.into_termcolor())`. -/
def Style.set_bg (s : Style) (color : Color) : Style :=
  { s with spec := s.spec.set_bg color.into_termcolor }

/-- One call to one of the four style setters. -/
inductive SetterCall where
  | color (c : Color)
  | bold (yes : Bool)
  | intense (yes : Bool)
  | bg (c : Color)
  deriving DecidableEq, Repr

/-- Apply one setter call to a style. -/
def applySetter (m : SetterCall) (s : Style) : Style :=
  match m with
  | SetterCall.color c => s.set_color c
  | SetterCall.bold yes => s.set_bold yes
  | SetterCall.intense yes => s.set_intense yes
  | SetterCall.bg c => s.set_bg c

/-- `StyledValue` from `extern_impl.rs`: a (borrowed or owned) style
together with the wrapped value. -/
structure StyledValue (T : Type) where
  style : Cow Style
  value : T

/-- `Style::value`: wrap a value, borrowing the style. -/
def Style.value {T : Type} (s : Style) (v : T) : StyledValue T :=
  ⟨Cow.borrowed s, v⟩

/-- `Style::into_value`: wrap a value, taking ownership of the style. -/
def Style.into_value {T : Type} (s : Style) (v : T) : StyledValue T :=
  ⟨Cow.owned s, v⟩

/-- `StyledValue::write_fmt` from `extern_impl.rs`.  The state of the
shared sink the style is bound to is threaded explicitly.  Mirrors the
source exactly: apply the captured spec (propagating a failure with
`?`), then run the inner closure, then always attempt a reset, and
combine the write and reset results with `Result::and`. -/
def StyledValue.write_fmt {T : Type} (sv : StyledValue T)
    (f : Buffer → Buffer × Except FmtError Unit) (b : Buffer) :
    Buffer × Except FmtError Unit :=
  let p1 := b.set_color sv.style.get.spec
  match p1.2 with
  | Except.error _ => (p1.1, Except.error FmtError.fromSetColor)
  | Except.ok _ =>
    let p2 := f p1.1
    let p3 := p2.1.reset
    (p3.1, resultAnd p2.2 (mapErrReset p3.2))

/-- The textual representations for which `impl_styled_value_fmt!`
generates an identical `fmt` implementation. -/
inductive FmtTrait where
  | debug
  | display
  | pointer
  | octal
  | binary
  | upperHex
  | lowerHex
  | upperExp
  | lowerExp
  deriving DecidableEq, Repr

/-- The `fmt` method the trait impl of each representation gets from
`impl_styled_value_fmt!`: delegate to `write_fmt` with that
formatting of the inner value for that representation (`T::fmt` is external,
so it is a parameter mapping the representation to its effect on the
sink). -/
def StyledValue.fmt {T : Type} (sv : StyledValue T) (tr : FmtTrait)
    (inner : FmtTrait → Buffer → Buffer × Except FmtError Unit) (b : Buffer) :
    Buffer × Except FmtError Unit :=
  sv.write_fmt (inner tr) b

/-- A canonical inner formatting of the wrapped value: it appends the
given write operations to the sink and reports the given result. -/
def innerWrite (wOps : List Op) (wres : Except FmtError Unit) :
    Buffer → Buffer × Except FmtError Unit :=
  fun b => ({ b with ops := b.ops ++ wOps }, wres)

/-- Count of styling resets among the recorded sink operations. -/
def countReset : List Op → Nat
  | [] => 0
  | Op.reset :: t => countReset t + 1
  | _ :: t => countReset t

/-- The log severity levels (`log::Level`). -/
inductive Level where
  | Trace
  | Debug
  | Info
  | Warn
  | Error
  deriving DecidableEq, Repr

/-- The formatter that hands out styles: it owns the shared handle to
the sink (`Formatter` itself lives outside this module; only the
handle it passes to `Style` matters here). -/
structure Formatter where
  buf : Nat
  deriving DecidableEq, Repr

/-- `Formatter::style`: a fresh `Style` sharing the same sink
handle, with a default spec. -/
def Formatter.style (f : Formatter) : Style :=
  ⟨f.buf, ColorSpec.new⟩

/-- `Formatter::default_level_style` from `extern_impl.rs`. -/
def Formatter.default_level_style (f : Formatter) (level : Level) : Style :=
  let level_style := f.style
  match level with
  | Level.Trace => level_style.set_color Color.White
  | Level.Debug => level_style.set_color Color.Blue
  | Level.Info => level_style.set_color Color.Green
  | Level.Warn => level_style.set_color Color.Yellow
  | Level.Error => (level_style.set_color Color.Red).set_bold true

/-- `Formatter::default_styled_level` from `extern_impl.rs`. -/
def Formatter.default_styled_level (f : Formatter) (level : Level) : StyledValue Level :=
  (f.default_level_style level).into_value level

/-! Helper lemmas. -/

theorem countReset_append (l1 l2 : List Op) :
    countReset (l1 ++ l2) = countReset l1 + countReset l2 := by
  induction l1 with
  | nil => simp [countReset]
  | cons h t ih =>
    cases h
    · simpa [countReset] using ih
    · simpa [countReset] using ih
    · simp [countReset, ih]; omega

theorem countReset_eq_zero (l : List Op) (h : ∀ o ∈ l, o = Op.writeValue) :
    countReset l = 0 := by
  induction l with
  | nil => rfl
  | cons x t ih =>
    have hx := h x (by simp)
    subst hx
    simpa [countReset] using ih (fun o ho => h o (by simp [ho]))

theorem digit_toLower (c : Char) (h : c.isDigit = true) : c.toLower = c := by
  simp [Char.isDigit] at h
  obtain ⟨h1, h2⟩ := h
  have hn : c.toNat ≤ 57 := by
    have := UInt32.le_def.mp h2
    simpa [Char.toNat, UInt32.toNat] using this
  unfold Char.toLower
  rw [if_neg]
  omega

namespace Termcolor

theorem foldl_digitStep_none (r : Nat) (dv : Char → Option Nat) (l : List Char) :
    l.foldl (digitStep r dv) none = none := by
  induction l with
  | nil => rfl
  | cons c t ih =>
    have hstep : digitStep r dv none c = none := by
      unfold digitStep
      cases dv c <;> rfl
    simpa [hstep] using ih

theorem digits_all_digits (l : List Char) :
    ∀ (a n : Nat), l.foldl (digitStep 10 decDigitVal) (some a) = some n →
      ∀ c ∈ l, c.isDigit = true := by
  induction l with
  | nil => simp
  | cons x t ih =>
    intro a n h c hc
    cases hdv : decDigitVal x with
    | none =>
      have hstep : digitStep 10 decDigitVal (some a) x = none := by
        unfold digitStep; rw [hdv]
      rw [List.foldl_cons, hstep, foldl_digitStep_none] at h
      exact absurd h (by simp)
    | some d =>
      have hx : x.isDigit = true := by
        by_contra hnx
        simp [decDigitVal, hnx] at hdv
      have hstep : digitStep 10 decDigitVal (some a) x = some (a * 10 + d) := by
        unfold digitStep; rw [hdv]
      rcases List.mem_cons.mp hc with hceq | hct
      · subst hceq; exact hx
      · rw [List.foldl_cons, hstep] at h
        exact ih (a * 10 + d) n h c hct

theorem map_toLower_of_digits (l : List Char) (h : ∀ c ∈ l, c.isDigit = true) :
    l.map Char.toLower = l := by
  induction l with
  | nil => rfl
  | cons x t ih =>
    simp only [List.map_cons]
    rw [digit_toLower x (h x (by simp)), ih (fun c hc => h c (by simp [hc]))]

theorem nameColor_none_of_digits (l : List Char) (h : ∀ c ∈ l, c.isDigit = true) :
    nameColor l = none := by
  have hb : l ≠ "black".data := fun he => absurd (h 'b' (by rw [he]; decide)) (by decide)
  have hbl : l ≠ "blue".data := fun he => absurd (h 'b' (by rw [he]; decide)) (by decide)
  have hg : l ≠ "green".data := fun he => absurd (h 'g' (by rw [he]; decide)) (by decide)
  have hr : l ≠ "red".data := fun he => absurd (h 'r' (by rw [he]; decide)) (by decide)
  have hc : l ≠ "cyan".data := fun he => absurd (h 'c' (by rw [he]; decide)) (by decide)
  have hm : l ≠ "magenta".data := fun he => absurd (h 'm' (by rw [he]; decide)) (by decide)
  have hy : l ≠ "yellow".data := fun he => absurd (h 'y' (by rw [he]; decide)) (by decide)
  have hw : l ≠ "white".data := fun he => absurd (h 'w' (by rw [he]; decide)) (by decide)
  unfold nameColor
  rw [if_neg hb, if_neg hbl, if_neg hg, if_neg hr, if_neg hc, if_neg hm, if_neg hy, if_neg hw]

theorem nameColor_none_of_comma (l : List Char) (h : ',' ∈ l) : nameColor l = none := by
  have hb : l ≠ "black".data := fun he => absurd (he ▸ h) (by decide)
  have hbl : l ≠ "blue".data := fun he => absurd (he ▸ h) (by decide)
  have hg : l ≠ "green".data := fun he => absurd (he ▸ h) (by decide)
  have hr : l ≠ "red".data := fun he => absurd (he ▸ h) (by decide)
  have hc : l ≠ "cyan".data := fun he => absurd (he ▸ h) (by decide)
  have hm : l ≠ "magenta".data := fun he => absurd (he ▸ h) (by decide)
  have hy : l ≠ "yellow".data := fun he => absurd (he ▸ h) (by decide)
  have hw : l ≠ "white".data := fun he => absurd (he ▸ h) (by decide)
  unfold nameColor
  rw [if_neg hb, if_neg hbl, if_neg hg, if_neg hr, if_neg hc, if_neg hm, if_neg hy, if_neg hw]

theorem fromStrNumeric_error_given (s : String) (e : ParseColorError)
    (h : Color.fromStrNumeric s = Except.error e) : e = ⟨s⟩ := by
  unfold Color.fromStrNumeric at h
  split at h
  all_goals try split at h
  all_goals try split at h
  all_goals simp_all

theorem fromStr_error_given (s : String) (e : ParseColorError)
    (h : Color.fromStr s = Except.error e) : e = ⟨s⟩ := by
  unfold Color.fromStr at h
  cases hn : nameColor (s.data.map Char.toLower) with
  | some c => rw [hn] at h; simp at h
  | none =>
    rw [hn] at h
    exact fromStrNumeric_error_given s e h

theorem fromStrNumeric_arity (s : String) (hc : ',' ∈ s.data)
    (hlen : (splitComma s.data).length ≠ 3) :
    Color.fromStrNumeric s = Except.error ⟨s⟩ := by
  unfold Color.fromStrNumeric
  rw [if_pos hc]
  rcases hsp : splitComma s.data with _ | ⟨a, _ | ⟨b, _ | ⟨c, _ | ⟨d, t⟩⟩⟩⟩
  · rfl
  · rfl
  · rfl
  · exact absurd (by rw [hsp]; rfl : (splitComma s.data).length = 3) hlen
  · rfl

theorem parse_number_none_of_big (l : List Char) (n : Nat)
    (hd : digitsVal decDigitVal 10 l = some n) (hn : 255 < n)
    (hall : ∀ c ∈ l, c.isDigit = true) :
    parse_number l = none := by
  have htake : l.take 2 ≠ ['0', 'x'] := by
    intro he
    have hx : 'x' ∈ l := List.take_subset 2 l (by rw [he]; decide)
    exact absurd (hall 'x' hx) (by decide)
  unfold parse_number
  rw [if_neg htake, hd]
  simp [Nat.not_le.mpr hn]

theorem fromStr_big_decimal (s : String) (n : Nat)
    (hd : digitsVal decDigitVal 10 s.data = some n) (hn : 255 < n) :
    Color.fromStr s = Except.error ⟨s⟩ := by
  have hne : ¬ (s.data.isEmpty = true) := by
    intro he
    unfold digitsVal at hd
    rw [if_pos he] at hd
    cases hd
  have hfold : s.data.foldl (digitStep 10 decDigitVal) (some 0) = some n := by
    unfold digitsVal at hd
    rw [if_neg hne] at hd
    exact hd
  have hall : ∀ c ∈ s.data, c.isDigit = true := digits_all_digits s.data 0 n hfold
  have hmap : s.data.map Char.toLower = s.data := map_toLower_of_digits s.data hall
  have hnc : ¬ (',' ∈ s.data) := fun hm => absurd (hall ',' hm) (by decide)
  unfold Color.fromStr
  rw [hmap, nameColor_none_of_digits s.data hall]
  show Color.fromStrNumeric s = Except.error ⟨s⟩
  unfold Color.fromStrNumeric
  rw [if_neg hnc, parse_number_none_of_big s.data n hd hn hall]

theorem fromStr_arity (s : String) (hc : ',' ∈ s.data)
    (hlen : (splitComma s.data).length ≠ 3) :
    Color.fromStr s = Except.error ⟨s⟩ := by
  have hmem : ',' ∈ s.data.map Char.toLower :=
    List.mem_map.mpr ⟨',', hc, by decide⟩
  unfold Color.fromStr
  rw [nameColor_none_of_comma (s.data.map Char.toLower) hmem]
  exact fromStrNumeric_arity s hc hlen

theorem digits_all_some (r : Nat) (dv : Char → Option Nat) (l : List Char) :
    ∀ (a n : Nat), l.foldl (digitStep r dv) (some a) = some n →
      ∀ c ∈ l, (dv c).isSome = true := by
  induction l with
  | nil => simp
  | cons x t ih =>
    intro a n h c hc
    cases hdv : dv x with
    | none =>
      have hstep : digitStep r dv (some a) x = none := by
        unfold digitStep; rw [hdv]
      rw [List.foldl_cons, hstep, foldl_digitStep_none] at h
      exact absurd h (by simp)
    | some d =>
      have hstep : digitStep r dv (some a) x = some (a * r + d) := by
        unfold digitStep; rw [hdv]
      rcases List.mem_cons.mp hc with hceq | hct
      · subst hceq; rw [hdv]; rfl
      · rw [List.foldl_cons, hstep] at h
        exact ih (a * r + d) n h c hct

theorem nameColor_none_of_zero (l : List Char) (h : '0' ∈ l) : nameColor l = none := by
  have hb : l ≠ "black".data := fun he => absurd (he ▸ h) (by decide)
  have hbl : l ≠ "blue".data := fun he => absurd (he ▸ h) (by decide)
  have hg : l ≠ "green".data := fun he => absurd (he ▸ h) (by decide)
  have hr : l ≠ "red".data := fun he => absurd (he ▸ h) (by decide)
  have hc : l ≠ "cyan".data := fun he => absurd (he ▸ h) (by decide)
  have hm : l ≠ "magenta".data := fun he => absurd (he ▸ h) (by decide)
  have hy : l ≠ "yellow".data := fun he => absurd (he ▸ h) (by decide)
  have hw : l ≠ "white".data := fun he => absurd (he ▸ h) (by decide)
  unfold nameColor
  rw [if_neg hb, if_neg hbl, if_neg hg, if_neg hr, if_neg hc, if_neg hm, if_neg hy, if_neg hw]

theorem splitComma_no_comma (l : List Char) (h : ¬ (',' ∈ l)) : splitComma l = [l] := by
  induction l with
  | nil => rfl
  | cons c rest ih =>
    have hc : ¬ (c = ',') := fun he => h (he ▸ List.mem_cons_self c rest)
    have hrest : ¬ (',' ∈ rest) := fun hm => h (List.mem_cons_of_mem c hm)
    unfold splitComma
    rw [if_neg hc, ih hrest]

theorem comma_of_triple (l : List Char) (a b c : List Char)
    (h : splitComma l = [a, b, c]) : ',' ∈ l := by
  by_contra hnc
  rw [splitComma_no_comma l hnc] at h
  exact absurd (congrArg List.length h) (by simp)

theorem parse_number_le_255 (l : List Char) (x : Nat)
    (h : parse_number l = some x) : x ≤ 255 := by
  unfold parse_number at h
  cases hr : (if l.take 2 = ['0', 'x'] then digitsVal hexDigitVal 16 (l.drop 2)
              else digitsVal decDigitVal 10 l) with
  | none => rw [hr] at h; simp at h
  | some n =>
    rw [hr] at h
    have h2 : (if n ≤ 255 then some n else none) = some x := h
    by_cases hle : n ≤ 255
    · rw [if_pos hle] at h2
      cases h2
      exact hle
    · rw [if_neg hle] at h2
      simp at h2

theorem parse_number_none_of_big_hex (l : List Char) (n : Nat)
    (htake : l.take 2 = ['0', 'x'])
    (hd : digitsVal hexDigitVal 16 (l.drop 2) = some n) (hn : 255 < n) :
    parse_number l = none := by
  unfold parse_number
  rw [if_pos htake, hd]
  simp [Nat.not_le.mpr hn]

theorem fromStr_big_hex (s : String) (n : Nat)
    (htake : s.data.take 2 = ['0', 'x'])
    (hd : digitsVal hexDigitVal 16 (s.data.drop 2) = some n) (hn : 255 < n) :
    Color.fromStr s = Except.error ⟨s⟩ := by
  have hl : s.data = '0' :: 'x' :: s.data.drop 2 := by
    conv_lhs => rw [← List.take_append_drop 2 s.data]
    rw [htake]
    rfl
  have hzero : '0' ∈ s.data := by
    rw [hl]
    exact List.mem_cons_self '0' _
  have hname : nameColor (s.data.map Char.toLower) = none :=
    nameColor_none_of_zero _ (List.mem_map.mpr ⟨'0', hzero, by decide⟩)
  have hne : ¬ ((s.data.drop 2).isEmpty = true) := by
    intro he
    unfold digitsVal at hd
    rw [if_pos he] at hd
    cases hd
  have hfold : (s.data.drop 2).foldl (digitStep 16 hexDigitVal) (some 0) = some n := by
    unfold digitsVal at hd
    rw [if_neg hne] at hd
    exact hd
  have hall : ∀ c ∈ s.data.drop 2, (hexDigitVal c).isSome = true :=
    digits_all_some 16 hexDigitVal _ 0 n hfold
  have hnc : ¬ (',' ∈ s.data) := by
    intro hm
    rw [hl] at hm
    rcases List.mem_cons.mp hm with h1 | hm2
    · exact absurd h1 (by decide)
    rcases List.mem_cons.mp hm2 with h2 | hm3
    · exact absurd h2 (by decide)
    · exact absurd (hall ',' hm3) (by decide)
  unfold Color.fromStr
  rw [hname]
  show Color.fromStrNumeric s = Except.error ⟨s⟩
  unfold Color.fromStrNumeric
  rw [if_neg hnc, parse_number_none_of_big_hex s.data n htake hd hn]

theorem fromStr_bad_component (s : String) (a b c : List Char)
    (hsp : splitComma s.data = [a, b, c])
    (hbad : parse_number a = none ∨ parse_number b = none ∨ parse_number c = none) :
    Color.fromStr s = Except.error ⟨s⟩ := by
  have hc : ',' ∈ s.data := comma_of_triple s.data a b c hsp
  have hmem : ',' ∈ s.data.map Char.toLower :=
    List.mem_map.mpr ⟨',', hc, by decide⟩
  unfold Color.fromStr
  rw [nameColor_none_of_comma (s.data.map Char.toLower) hmem]
  show Color.fromStrNumeric s = Except.error ⟨s⟩
  unfold Color.fromStrNumeric
  rw [if_pos hc]
  simp only [hsp]
  rcases hbad with ha | hb | hcc
  · rw [ha]
  · rw [hb]
    cases parse_number a <;> rfl
  · rw [hcc]
    cases parse_number a <;> cases parse_number b <;> rfl

theorem fromStr_ok_forms (s : String) (tc : Color)
    (h : Color.fromStr s = Except.ok tc) :
    (nameColor (s.data.map Char.toLower)).isSome = true ∨
    (¬ (',' ∈ s.data) ∧ (parse_number s.data).isSome = true) ∨
    (∃ x y z, splitComma s.data = [x, y, z] ∧ (parse_number x).isSome = true ∧
       (parse_number y).isSome = true ∧ (parse_number z).isSome = true) := by
  unfold Color.fromStr at h
  cases hn : nameColor (s.data.map Char.toLower) with
  | some c0 => left; rfl

  | none =>
    rw [hn] at h
    have h2 : Color.fromStrNumeric s = Except.ok tc := h
    unfold Color.fromStrNumeric at h2
    by_cases hc : ',' ∈ s.data
    · rw [if_pos hc] at h2
      right; right
      rcases hsp : splitComma s.data with _ | ⟨x, _ | ⟨y, _ | ⟨z, _ | ⟨w, t⟩⟩⟩⟩ <;>
        simp only [hsp] at h2
      · simp at h2
      · simp at h2
      · simp at h2
      · cases hpa : parse_number x with
        | none => rw [hpa] at h2; simp at h2
        | some r =>
          rw [hpa] at h2
          cases hpb : parse_number y with
          | none => rw [hpb] at h2; simp at h2
          | some g =>
            rw [hpb] at h2
            cases hpc : parse_number z with
            | none => rw [hpc] at h2; simp at h2
            | some bl =>
              exact ⟨x, y, z, rfl, by rw [hpa]; rfl, by rw [hpb]; rfl, by rw [hpc]; rfl⟩
      · simp at h2
    · rw [if_neg hc] at h2
      right; left
      cases hp : parse_number s.data with
      | none => rw [hp] at h2; simp at h2
      | some m => exact ⟨hc, rfl⟩

end Termcolor

theorem from_str_of_tc_error (s : String) (e0 : Termcolor.ParseColorError)
    (h : Termcolor.Color.fromStr s = Except.error e0) :
    Color.from_str s = Except.error (ParseColorError.termcolor e0) := by
  unfold Color.from_str
  rw [h]

theorem from_termcolor_not_hidden (tc : Termcolor.Color) (c : Color)
    (h : Color.from_termcolor tc = some c) : c ≠ Color.__Nonexhaustive := by
  cases tc <;> simp [Color.from_termcolor] at h <;> simp [← h]

/-! Claim theorems. -/

/-- C1: For every StyledValue and every textual representation, the
formatting operation first applies the captured style to the bound
sink; if that application fails, the operation fails immediately and
the inner value is never written to the sink; if it succeeds, the inner
value is formatted and then the styling reset of the sink is attempted
exactly once, unconditionally, regardless of whether the inner write
succeeded or failed. -/
theorem c1_apply_style_then_always_reset {T : Type} (tr : FmtTrait) (sv : StyledValue T)
    (b : Buffer) (wOps : List Op) (wres : Except FmtError Unit)
    (hw : ∀ o ∈ wOps, o = Op.writeValue) :
    (b.failSetColor = true →
      sv.fmt tr (fun _ => innerWrite wOps wres) b
        = ({ b with ops := b.ops ++ [Op.setColor sv.style.get.spec] },
           Except.error FmtError.fromSetColor)) ∧
    (b.failSetColor = false →
      (sv.fmt tr (fun _ => innerWrite wOps wres) b).1.ops
        = b.ops ++ [Op.setColor sv.style.get.spec] ++ wOps ++ [Op.reset] ∧
      countReset (sv.fmt tr (fun _ => innerWrite wOps wres) b).1.ops
        = countReset b.ops + 1) := by
  constructor
  · intro hfail
    simp [StyledValue.fmt, StyledValue.write_fmt, Buffer.set_color, hfail]
  · intro hok
    have hops : (sv.fmt tr (fun _ => innerWrite wOps wres) b).1.ops
        = b.ops ++ [Op.setColor sv.style.get.spec] ++ wOps ++ [Op.reset] := by
      simp [StyledValue.fmt, StyledValue.write_fmt, Buffer.set_color, hok, innerWrite,
        Buffer.reset]
    refine ⟨hops, ?_⟩
    rw [hops, countReset_append, countReset_append, countReset_append,
      countReset_eq_zero wOps hw]
    simp [countReset]

/-- Witness for C1: a concrete sink whose styling application fails,
and one where it succeeds while the reset fails. -/
theorem c1_apply_style_then_always_reset_witness :
    (((⟨[], true, false⟩ : Buffer).failSetColor = true →
      (Style.value ⟨0, ColorSpec.new⟩ (0 : Nat)).fmt FmtTrait.display
          (fun _ => innerWrite [Op.writeValue] (Except.ok ())) ⟨[], true, false⟩
        = (⟨[Op.setColor ColorSpec.new], true, false⟩, Except.error FmtError.fromSetColor)) ∧
     ((⟨[], true, false⟩ : Buffer).failSetColor = false →
      ((Style.value ⟨0, ColorSpec.new⟩ (0 : Nat)).fmt FmtTrait.display
          (fun _ => innerWrite [Op.writeValue] (Except.ok ())) ⟨[], true, false⟩).1.ops
        = [Op.setColor ColorSpec.new, Op.writeValue, Op.reset] ∧
      countReset ((Style.value ⟨0, ColorSpec.new⟩ (0 : Nat)).fmt FmtTrait.display
          (fun _ => innerWrite [Op.writeValue] (Except.ok ())) ⟨[], true, false⟩).1.ops = 1)) ∧
    ((Style.value ⟨0, ColorSpec.new⟩ (0 : Nat)).fmt FmtTrait.display
        (fun _ => innerWrite [Op.writeValue] (Except.error FmtError.fromWrite))
        ⟨[], false, true⟩).1.ops
      = [Op.setColor ColorSpec.new, Op.writeValue, Op.reset] :=
  ⟨c1_apply_style_then_always_reset FmtTrait.display
      (Style.value ⟨0, ColorSpec.new⟩ (0 : Nat)) ⟨[], true, false⟩
      [Op.writeValue] (Except.ok ()) (by decide),
   ((c1_apply_style_then_always_reset FmtTrait.display
      (Style.value ⟨0, ColorSpec.new⟩ (0 : Nat)) ⟨[], false, true⟩
      [Op.writeValue] (Except.error FmtError.fromWrite) (by decide)).2 rfl).1⟩

/-- C2: When the style was successfully applied, the write result and
reset result combine so that a write failure is reported even when the
reset also fails, a reset failure is reported when the write succeeded,
and the operation succeeds exactly when both the inner write and the
reset succeed. -/
theorem c2_write_error_priority {T : Type} (tr : FmtTrait) (sv : StyledValue T)
    (b : Buffer) (wOps : List Op) (wres : Except FmtError Unit)
    (h : b.failSetColor = false) :
    (∀ e, wres = Except.error e →
       (sv.fmt tr (fun _ => innerWrite wOps wres) b).2 = Except.error e) ∧
    (wres = Except.ok () → b.failReset = true →
       (sv.fmt tr (fun _ => innerWrite wOps wres) b).2 = Except.error FmtError.fromReset) ∧
    ((sv.fmt tr (fun _ => innerWrite wOps wres) b).2 = Except.ok ()
       ↔ wres = Except.ok () ∧ b.failReset = false) := by
  cases wres <;> cases hb : b.failReset <;>
    simp [StyledValue.fmt, StyledValue.write_fmt, Buffer.set_color, h, innerWrite,
      Buffer.reset, resultAnd, mapErrReset, hb]

/-- Witness for C2: with a failing inner write and a failing reset, the
reported error is the one of the inner write. -/
theorem c2_write_error_priority_witness :
    ((Style.value ⟨0, ColorSpec.new⟩ (0 : Nat)).fmt FmtTrait.display
        (fun _ => innerWrite [Op.writeValue] (Except.error FmtError.fromWrite))
        ⟨[], false, true⟩).2 = Except.error FmtError.fromWrite :=
  (c2_write_error_priority FmtTrait.display (Style.value ⟨0, ColorSpec.new⟩ (0 : Nat))
      ⟨[], false, true⟩ [Op.writeValue] (Except.error FmtError.fromWrite) rfl).1
    FmtError.fromWrite rfl

/-- C3: Both the borrowing form value and the owning form into_value
capture the style spec as of the moment of the call: the produced
StyledValue carries exactly that spec, its rendering applies exactly
that spec to the sink, and a setter applied afterwards yields a new
Style whose own later wrappings carry the new spec without affecting
the already-produced StyledValue. -/
theorem c3_value_snapshots_spec (s : Style) {T : Type} (v : T) (m : SetterCall) :
    ((s.value v).style.get.spec = s.spec ∧
     (s.into_value v).style.get.spec = s.spec ∧
     ((applySetter m s).value v).style.get.spec = (applySetter m s).spec) ∧
    (∀ (tr : FmtTrait) (b : Buffer) (wOps : List Op) (wres : Except FmtError Unit),
       b.failSetColor = false →
       ((s.value v).fmt tr (fun _ => innerWrite wOps wres) b).1.ops
         = b.ops ++ [Op.setColor s.spec] ++ wOps ++ [Op.reset] ∧
       ((s.into_value v).fmt tr (fun _ => innerWrite wOps wres) b).1.ops
         = b.ops ++ [Op.setColor s.spec] ++ wOps ++ [Op.reset]) := by
  refine ⟨⟨rfl, rfl, rfl⟩, ?_⟩
  intro tr b wOps wres hok
  constructor <;>
    simp [Style.value, Style.into_value, StyledValue.fmt, StyledValue.write_fmt, Cow.get,
      Buffer.set_color, hok, innerWrite, Buffer.reset]

/-- Witness for C3: a concrete style wrapped before a set_color call
still carries and applies the original default spec. -/
theorem c3_value_snapshots_spec_witness :
    (Style.value ⟨0, ColorSpec.new⟩ (0 : Nat)).style.get.spec = ColorSpec.new ∧
    ((Style.value ⟨0, ColorSpec.new⟩ (0 : Nat)).fmt FmtTrait.display
        (fun _ => innerWrite [Op.writeValue] (Except.ok ())) ⟨[], false, false⟩).1.ops
      = [Op.setColor ColorSpec.new, Op.writeValue, Op.reset] :=
  ⟨(c3_value_snapshots_spec ⟨0, ColorSpec.new⟩ (0 : Nat) (SetterCall.color Color.Red)).1.1,
   ((c3_value_snapshots_spec ⟨0, ColorSpec.new⟩ (0 : Nat) (SetterCall.color Color.Red)).2
      FmtTrait.display ⟨[], false, false⟩ [Op.writeValue] (Except.ok ()) rfl).1⟩

/-- C4: For every input string on which Color parsing fails, the
invalid accessor of the error returns exactly the original input;
parsing succeeds only on a case variant of the eight names, a single
accepted integer without a comma, or a comma triple of three accepted
integers, and an accepted integer is never above 255 — so every other
input fails; in particular every comma input without exactly three
components, every all-digit decimal integer above 255, every
0x-prefixed hexadecimal integer above 255, and every comma triple with
a rejected component fail with the original input recorded, as do the
concrete inputs 0,0,256 and 0x100 and not_a_color. -/
theorem c4_parse_failure_reports_input :
    (∀ (s : String) (e : ParseColorError), Color.from_str s = Except.error e → e.invalid = s) ∧
    (∀ (s : String) (c : Color), Color.from_str s = Except.ok c →
       (Termcolor.nameColor (s.data.map Char.toLower)).isSome = true ∨
       (¬ (',' ∈ s.data) ∧ (Termcolor.parse_number s.data).isSome = true) ∨
       (∃ x y z, Termcolor.splitComma s.data = [x, y, z] ∧
          (Termcolor.parse_number x).isSome = true ∧
          (Termcolor.parse_number y).isSome = true ∧
          (Termcolor.parse_number z).isSome = true)) ∧
    (∀ (l : List Char) (x : Nat), Termcolor.parse_number l = some x → x ≤ 255) ∧
    (∀ s : String, ',' ∈ s.data → (Termcolor.splitComma s.data).length ≠ 3 →
       Color.from_str s = Except.error (ParseColorError.termcolor ⟨s⟩)) ∧
    (∀ (s : String) (n : Nat),
       Termcolor.digitsVal Termcolor.decDigitVal 10 s.data = some n → 255 < n →
       Color.from_str s = Except.error (ParseColorError.termcolor ⟨s⟩)) ∧
    (∀ (s : String) (n : Nat), s.data.take 2 = ['0', 'x'] →
       Termcolor.digitsVal Termcolor.hexDigitVal 16 (s.data.drop 2) = some n → 255 < n →
       Color.from_str s = Except.error (ParseColorError.termcolor ⟨s⟩)) ∧
    (∀ (s : String) (x y z : List Char), Termcolor.splitComma s.data = [x, y, z] →
       (Termcolor.parse_number x = none ∨ Termcolor.parse_number y = none ∨
        Termcolor.parse_number z = none) →
       Color.from_str s = Except.error (ParseColorError.termcolor ⟨s⟩)) ∧
    Color.from_str "0,0,256" = Except.error (ParseColorError.termcolor ⟨"0,0,256"⟩) ∧
    Color.from_str "0x100" = Except.error (ParseColorError.termcolor ⟨"0x100"⟩) ∧
    Color.from_str "not_a_color" = Except.error (ParseColorError.termcolor ⟨"not_a_color"⟩) := by
  refine ⟨?_, ?_, ?_, ?_, ?_, ?_, ?_, by decide, by decide, by decide⟩
  · intro s e h
    unfold Color.from_str at h
    cases htc : Termcolor.Color.fromStr s with
    | error e0 =>
      rw [htc] at h
      simp at h
      have he0 := Termcolor.fromStr_error_given s e0 htc
      subst h
      rw [he0]
      rfl
    | ok tc =>
      cases hft : Color.from_termcolor tc with
      | some c => simp [htc, hft] at h
      | none =>
        simp [htc, hft] at h
        subst h
        rfl
  · intro s c h
    unfold Color.from_str at h
    cases h1 : Termcolor.Color.fromStr s with
    | error e => rw [h1] at h; simp at h
    | ok tc => exact Termcolor.fromStr_ok_forms s tc h1
  · intro l x h
    exact Termcolor.parse_number_le_255 l x h
  · intro s hc hlen
    exact from_str_of_tc_error s ⟨s⟩ (Termcolor.fromStr_arity s hc hlen)
  · intro s n hd hn
    exact from_str_of_tc_error s ⟨s⟩ (Termcolor.fromStr_big_decimal s n hd hn)
  · intro s n htake hd hn
    exact from_str_of_tc_error s ⟨s⟩ (Termcolor.fromStr_big_hex s n htake hd hn)
  · intro s x y z hsp hbad
    exact from_str_of_tc_error s ⟨s⟩ (Termcolor.fromStr_bad_component s x y z hsp hbad)

/-- Witness for C4: the malformed pair 0,0, the out-of-range integers
256 and 0x300, the out-of-range component triple 0,0,300, and the
accepted bound 255. -/
theorem c4_parse_failure_reports_input_witness :
    Color.from_str "0,0" = Except.error (ParseColorError.termcolor ⟨"0,0"⟩) ∧
    (ParseColorError.termcolor ⟨"0,0"⟩).invalid = "0,0" ∧
    Color.from_str "256" = Except.error (ParseColorError.termcolor ⟨"256"⟩) ∧
    Color.from_str "0x300" = Except.error (ParseColorError.termcolor ⟨"0x300"⟩) ∧
    Color.from_str "0,0,300" = Except.error (ParseColorError.termcolor ⟨"0,0,300"⟩) ∧
    (255 : Nat) ≤ 255 :=
  ⟨c4_parse_failure_reports_input.2.2.2.1 "0,0" (by decide) (by decide),
   c4_parse_failure_reports_input.1 "0,0" (ParseColorError.termcolor ⟨"0,0"⟩)
     (c4_parse_failure_reports_input.2.2.2.1 "0,0" (by decide) (by decide)),
   c4_parse_failure_reports_input.2.2.2.2.1 "256" 256 (by decide) (by decide),
   c4_parse_failure_reports_input.2.2.2.2.2.1 "0x300" 768 (by decide) (by decide) (by decide),
   c4_parse_failure_reports_input.2.2.2.2.2.2.1 "0,0,300" ['0'] ['0'] ['3', '0', '0'] (by decide)
     (Or.inr (Or.inr (by decide))),
   c4_parse_failure_reports_input.2.2.1 ['2', '5', '5'] 255 (by decide)⟩

/-- C5: Each of the eight fixed color names parses, in any letter
casing, to the corresponding named Color variant. -/
theorem c5_named_colors_case_insensitive (s : String) :
    (s.data.map Char.toLower = "black".data → Color.from_str s = Except.ok Color.Black) ∧
    (s.data.map Char.toLower = "blue".data → Color.from_str s = Except.ok Color.Blue) ∧
    (s.data.map Char.toLower = "green".data → Color.from_str s = Except.ok Color.Green) ∧
    (s.data.map Char.toLower = "red".data → Color.from_str s = Except.ok Color.Red) ∧
    (s.data.map Char.toLower = "cyan".data → Color.from_str s = Except.ok Color.Cyan) ∧
    (s.data.map Char.toLower = "magenta".data → Color.from_str s = Except.ok Color.Magenta) ∧
    (s.data.map Char.toLower = "yellow".data → Color.from_str s = Except.ok Color.Yellow) ∧
    (s.data.map Char.toLower = "white".data → Color.from_str s = Except.ok Color.White) := by
  refine ⟨?_, ?_, ?_, ?_, ?_, ?_, ?_, ?_⟩ <;> intro h <;>
    unfold Color.from_str Termcolor.Color.fromStr <;> rw [h] <;> rfl

/-- Witness for C5: both Red and RED parse to the red variant. -/
theorem c5_named_colors_case_insensitive_witness :
    Color.from_str "Red" = Except.ok Color.Red ∧
    Color.from_str "RED" = Except.ok Color.Red :=
  ⟨(c5_named_colors_case_insensitive "Red").2.2.2.1 (by decide),
   (c5_named_colors_case_insensitive "RED").2.2.2.1 (by decide)⟩

set_option maxRecDepth 10000 in
/-- C6: Every integer between 0 and 255, rendered in decimal or in
0x-prefixed hexadecimal, parses to the indexed 8-bit palette variant
carrying that integer; in particular 0xFF parses to index 255. -/
theorem c6_numeric_parses_indexed :
    (∀ n : Nat, n < 256 →
       Color.from_str (Nat.repr n) = Except.ok (Color.Ansi256 n) ∧
       Color.from_str (String.mk ('0' :: 'x' :: Nat.toDigits 16 n))
         = Except.ok (Color.Ansi256 n)) ∧
    Color.from_str "0xFF" = Except.ok (Color.Ansi256 255) := by
  constructor
  · decide
  · decide

/-- Witness for C6: the bound case 255 in both renderings. -/
theorem c6_numeric_parses_indexed_witness :
    Color.from_str (Nat.repr 255) = Except.ok (Color.Ansi256 255) ∧
    Color.from_str (String.mk ('0' :: 'x' :: Nat.toDigits 16 255))
      = Except.ok (Color.Ansi256 255) :=
  c6_numeric_parses_indexed.1 255 (by decide)

/-- C7: default_level_style is total over the five levels with a fixed
result per level: white foreground for Trace, blue for Debug, green for
Info, yellow for Warn, and a bold red foreground for Error. -/
theorem c7_default_level_style_fixed (f : Formatter) :
    (f.default_level_style Level.Trace).spec = ⟨some Termcolor.Color.White, none, false, false⟩ ∧
    (f.default_level_style Level.Debug).spec = ⟨some Termcolor.Color.Blue, none, false, false⟩ ∧
    (f.default_level_style Level.Info).spec = ⟨some Termcolor.Color.Green, none, false, false⟩ ∧
    (f.default_level_style Level.Warn).spec = ⟨some Termcolor.Color.Yellow, none, false, false⟩ ∧
    (f.default_level_style Level.Error).spec = ⟨some Termcolor.Color.Red, none, true, false⟩ :=
  ⟨rfl, rfl, rfl, rfl, rfl⟩

/-- C8: Each setter mutates exactly one field of the spec, leaving the
other fields and the sink handle unchanged, returns the updated style
for chaining, overwrites its own previous value when called twice, and
calls to distinct setters commute with the final values independent of
order. -/
theorem c8_setters_touch_single_field (s : Style) (c c2 bgc : Color) (y y2 i i2 : Bool) :
    ((s.set_color c).spec.fg = c.into_termcolor ∧
     (s.set_color c).spec.bg = s.spec.bg ∧
     (s.set_color c).spec.bold = s.spec.bold ∧
     (s.set_color c).spec.intense = s.spec.intense ∧
     (s.set_color c).buf = s.buf) ∧
    ((s.set_bold y).spec.bold = y ∧
     (s.set_bold y).spec.fg = s.spec.fg ∧
     (s.set_bold y).spec.bg = s.spec.bg ∧
     (s.set_bold y).spec.intense = s.spec.intense ∧
     (s.set_bold y).buf = s.buf) ∧
    ((s.set_intense i).spec.intense = i ∧
     (s.set_intense i).spec.fg = s.spec.fg ∧
     (s.set_intense i).spec.bg = s.spec.bg ∧
     (s.set_intense i).spec.bold = s.spec.bold ∧
     (s.set_intense i).buf = s.buf) ∧
    ((s.set_bg bgc).spec.bg = bgc.into_termcolor ∧
     (s.set_bg bgc).spec.fg = s.spec.fg ∧
     (s.set_bg bgc).spec.bold = s.spec.bold ∧
     (s.set_bg bgc).spec.intense = s.spec.intense ∧
     (s.set_bg bgc).buf = s.buf) ∧
    ((s.set_color c).set_color c2 = s.set_color c2 ∧
     (s.set_bold y).set_bold y2 = s.set_bold y2 ∧
     (s.set_intense i).set_intense i2 = s.set_intense i2 ∧
     (s.set_bg bgc).set_bg c2 = s.set_bg c2) ∧
    (((s.set_color c).set_bold y).set_intense i = ((s.set_intense i).set_bold y).set_color c ∧
     ((s.set_color c).set_bold y).set_intense i = ((s.set_bold y).set_color c).set_intense i ∧
     (((s.set_color c).set_bold y).set_intense i).spec
       = ⟨c.into_termcolor, s.spec.bg, y, i⟩) :=
  ⟨⟨rfl, rfl, rfl, rfl, rfl⟩, ⟨rfl, rfl, rfl, rfl, rfl⟩, ⟨rfl, rfl, rfl, rfl, rfl⟩,
   ⟨rfl, rfl, rfl, rfl, rfl⟩, ⟨rfl, rfl, rfl, rfl⟩, ⟨rfl, rfl, rfl⟩⟩

/-- C9: A successful parse never returns the reserved non-exhaustive
variant, and the translation from backend colors covers every
non-hidden backend color. -/
theorem c9_parse_never_hidden :
    (∀ (s : String) (c : Color), Color.from_str s = Except.ok c → c ≠ Color.__Nonexhaustive) ∧
    (∀ tc : Termcolor.Color, tc ≠ Termcolor.Color.__Nonexhaustive →
       (Color.from_termcolor tc).isSome = true) := by
  constructor
  · intro s c h
    unfold Color.from_str at h
    cases h1 : Termcolor.Color.fromStr s with
    | error e => rw [h1] at h; simp at h
    | ok tc =>
      cases h2 : Color.from_termcolor tc with
      | none => rw [h1] at h; simp [h2] at h
      | some c0 =>
        rw [h1] at h
        simp [h2] at h
        subst h
        exact from_termcolor_not_hidden tc c0 h2
  · intro tc h
    cases tc <;> simp [Color.from_termcolor] at h ⊢

/-- Witness for C9: the parse of red is a non-hidden variant, and the
black backend color is covered. -/
theorem c9_parse_never_hidden_witness :
    Color.Red ≠ Color.__Nonexhaustive ∧
    (Color.from_termcolor Termcolor.Color.Black).isSome = true :=
  ⟨c9_parse_never_hidden.1 "red" Color.Red (by decide),
   c9_parse_never_hidden.2 Termcolor.Color.Black (by decide)⟩

/-- C10: Passing the hidden reserved variant to set_color or set_bg
does not fail and silently clears the corresponding foreground
(respectively background) field to unset, erasing any previously set
color, while the other fields are unchanged. -/
theorem c10_hidden_variant_clears_field (s : Style) (c : Color) :
    ((s.set_color Color.__Nonexhaustive).spec.fg = none ∧
     (s.set_bg Color.__Nonexhaustive).spec.bg = none ∧
     ((s.set_color c).set_color Color.__Nonexhaustive).spec.fg = none ∧
     ((s.set_bg c).set_bg Color.__Nonexhaustive).spec.bg = none) ∧
    ((s.set_color Color.__Nonexhaustive).spec.bg = s.spec.bg ∧
     (s.set_color Color.__Nonexhaustive).spec.bold = s.spec.bold ∧
     (s.set_color Color.__Nonexhaustive).spec.intense = s.spec.intense ∧
     (s.set_bg Color.__Nonexhaustive).spec.fg = s.spec.fg ∧
     (s.set_bg Color.__Nonexhaustive).spec.bold = s.spec.bold ∧
     (s.set_bg Color.__Nonexhaustive).spec.intense = s.spec.intense) :=
  ⟨⟨rfl, rfl, rfl, rfl⟩, ⟨rfl, rfl, rfl, rfl, rfl, rfl⟩⟩
